import Mathlib

/-!
Verification of the OCR_App text-reconstruction pipeline.

The development shallowly embeds the two Python source files
(`src/OCR_App/ocr.py` and `src/OCR_App/main.py`).  Planar coordinates are
modelled as rationals, Python strings as Lean strings, and the external
I/O boundaries (the EasyOCR engine, PDF rendering, the filesystem) are
abstracted by passing the data they would produce - per-page detection
lists, file contents, file existence - as explicit arguments.
-/

namespace OCRApp

/-- A planar point `(x, y)`; `pt.1` is `pt[0]` (x) and `pt.2` is `pt[1]` (y). -/
abbrev Point := ℚ × ℚ

/-- The dynamically-typed `text` field of an EasyOCR result tuple: either an
actual Python `str` or a value of some other runtime type (the code guards
with `isinstance(text, str)`). -/
inductive PyText where
  | str (s : String)
  | nonstr
deriving DecidableEq

/-- One raw engine detection `(bbox, text, conf)` as returned by
`reader.readtext`. -/
structure RawResult where
  bbox : List Point
  text : PyText
  conf : ℚ
deriving DecidableEq

/-- Model of Python `str.strip()`: remove leading and trailing whitespace. -/
def pyStrip (s : String) : String :=
  ⟨((s.data.dropWhile Char.isWhitespace).reverse.dropWhile Char.isWhitespace).reverse⟩

/-- Model of Python `str.lower()` on extension strings. -/
def pyLower (s : String) : String :=
  ⟨s.data.map Char.toLower⟩

/-- Model of Python `sep.join(list)`. -/
def pyJoin (sep : String) : List String → String
  | [] => ""
  | [t] => t
  | t :: ts => t ++ sep ++ pyJoin sep ts

/-- Model of `np.mean` on a list of scalars. -/
def npMean (l : List ℚ) : ℚ := l.sum / (l.length : ℚ)

/-- Model of Python `max(...)` over a non-empty iterable (`0` on the
empty list, which the code never produces). -/
def listMax : List ℚ → ℚ
  | [] => 0
  | x :: xs => xs.foldl max x

/-- Model of Python `min(...)` over a non-empty iterable. -/
def listMin : List ℚ → ℚ
  | [] => 0
  | x :: xs => xs.foldl min x

/-- Model of `statistics.median`: sort ascending; the middle element for odd
length, the mean of the two middle elements for even length. -/
def median (data : List ℚ) : ℚ :=
  let s := List.insertionSort (fun a b => a ≤ b) data
  let n := data.length
  if n % 2 = 1 then s.getD (n / 2) 0
  else (s.getD (n / 2 - 1) 0 + s.getD (n / 2) 0) / 2

/-- The 4-tuple `(np.mean of y-coords, np.mean of x-coords, bbox, text)`
built inside `_group_by_line` for every surviving detection. -/
structure Item where
  vy : ℚ
  vx : ℚ
  bbox : List Point
  text : String
deriving DecidableEq

/-- Vertical anchor of a raw detection: mean of its region's y-coordinates. -/
def rawVy (r : RawResult) : ℚ := npMean (r.bbox.map Prod.snd)

/-- Horizontal anchor of a raw detection: mean of its region's x-coordinates. -/
def rawVx (r : RawResult) : ℚ := npMean (r.bbox.map Prod.fst)

/-- The filter-and-project step of the generator inside `_group_by_line`:
keep a detection iff its text is a `str` whose stripped form is non-empty,
and tag it with its two anchors. -/
def mkItem : RawResult → Option Item
  | ⟨bbox, PyText.str s, _⟩ =>
    if pyStrip s ≠ "" then some ⟨npMean (bbox.map Prod.snd), npMean (bbox.map Prod.fst), bbox, s⟩
    else none
  | ⟨_, PyText.nonstr, _⟩ => none

/-- Boolean form of the survival condition of `mkItem`. -/
def textOk (r : RawResult) : Bool :=
  match r.text with
  | PyText.str s => pyStrip s ≠ ""
  | PyText.nonstr => false

/-- The sort key ordering `key=lambda item: (item[0], item[1])`:
lexicographic on the pair (vertical anchor, horizontal anchor). -/
def itemLe (a b : Item) : Prop :=
  a.vy < b.vy ∨ (a.vy = b.vy ∧ a.vx ≤ b.vx)

instance : DecidableRel itemLe := fun a b => by
  unfold itemLe; infer_instance

/-- `sorted_items` of `_group_by_line`: the surviving detections sorted
stably and ascending by (vertical anchor, horizontal anchor). -/
def sortedItems (results : List RawResult) : List Item :=
  List.insertionSort itemLe (results.filterMap mkItem)

/-- The loop body of `_group_by_line`: `lines` is the accumulated list of
line groups; each item is appended to `lines[-1]` when its vertical anchor
is within `line_spacing` of the anchor of `lines[-1][-1]`, and otherwise
opens a new group. -/
def groupLoop (line_spacing : ℚ) (lines : List (List Item)) : List Item → List (List Item)
  | [] => lines
  | item :: rest =>
    match (lines.getLastD []).getLast? with
    | some last =>
      if |item.vy - last.vy| ≤ line_spacing then
        groupLoop line_spacing (lines.dropLast ++ [lines.getLastD [] ++ [item]]) rest
      else
        groupLoop line_spacing (lines ++ [[item]]) rest
    | none => groupLoop line_spacing (lines ++ [[item]]) rest

/-- `_group_by_line(results, line_spacing)`: filter, sort, then group
greedily in one pass. -/
def _group_by_line (results : List RawResult) (line_spacing : ℚ) : List (List Item) :=
  match sortedItems results with
  | [] => []
  | first :: rest => groupLoop line_spacing [[first]] rest

/-- Height of one detection's region:
`max(pt[1] for pt in bbox) - min(pt[1] for pt in bbox)`. -/
def detHeight (r : RawResult) : ℚ :=
  listMax (r.bbox.map Prod.snd) - listMin (r.bbox.map Prod.snd)

/-- The `heights` list of `_format_results`, computed over ALL results
(before any text filtering). -/
def heightsOf (results : List RawResult) : List ℚ := results.map detHeight

/-- `typical_height = statistics.median(heights) if heights else 10.0`. -/
def typicalHeight (results : List RawResult) : ℚ :=
  if heightsOf results ≠ [] then median (heightsOf results) else 10

/-- `line_spacing = max(typical_height * 0.6, 8.0)`. -/
def lineSpacingOf (results : List RawResult) : ℚ :=
  max (typicalHeight results * 0.6) 8

/-- The within-line ordering `key=lambda item: item[1]`: by horizontal
anchor. -/
def xLe (a b : Item) : Prop := a.vx ≤ b.vx

instance : DecidableRel xLe := fun a b => by
  unfold xLe; infer_instance

/-- Render one line group: re-sort by horizontal anchor, strip each
segment's text, join with single spaces. -/
def lineText (line : List Item) : String :=
  pyJoin " " ((List.insertionSort xLe line).map (fun seg => pyStrip seg.text))

/-- `_format_results(results)`: empty string for an empty result list,
otherwise the newline-join of the rendered line groups. -/
def _format_results (results : List RawResult) : String :=
  if results = [] then ""
  else pyJoin "\n" ((_group_by_line results (lineSpacingOf results)).map lineText)

/-- `extract_text_from_image`: the engine call (`reader.readtext`) is the
I/O boundary, so the function is modelled on the detection list the engine
returns for the image. -/
def extract_text_from_image (detections : List RawResult) : String :=
  _format_results detections

/-- `extract_text_from_pdf`: each page is rendered and recognized
(I/O boundary, modelled as the per-page detection lists, in page order);
the per-page texts are joined with a blank line, empty pages dropped
(`"\n\n".join(text for text in texts if text)`). -/
def extract_text_from_pdf (pages : List (List RawResult)) : String :=
  pyJoin "\n\n" ((pages.map extract_text_from_image).filter (fun t => t ≠ ""))

/-- `_SUPPORTED_IMAGE_EXTENSIONS`. -/
def _SUPPORTED_IMAGE_EXTS : List String :=
  [".png", ".jpg", ".jpeg", ".bmp", ".tiff", ".tif"]

/-- A file on disk, as seen by `extract_text_from_path`: its extension
(`path.suffix`, the final dot-component of the name) and the detection
lists the engine would produce for its content (a page list when read as a
PDF, a single detection list when read as an image). -/
structure FileDoc where
  suffix : String
  pdfPages : List (List RawResult)
  imageDetections : List RawResult
deriving DecidableEq

/-- `extract_text_from_path`: dispatch on the lowercased extension;
unsupported extensions raise `ValueError(f"Unsupported file type: {suffix}")`,
modelled as `Except.error`. -/
def extract_text_from_path (doc : FileDoc) : Except String String :=
  let suffix := pyLower doc.suffix
  if suffix = ".pdf" then Except.ok (extract_text_from_pdf doc.pdfPages)
  else if suffix ∈ _SUPPORTED_IMAGE_EXTS then Except.ok (extract_text_from_image doc.imageDetections)
  else Except.error ("Unsupported file type: " ++ suffix)

/-- Filesystem state of one resolved path in `run_ocr_on_files`:
`path.exists()` is false, or the file is present with content `doc`. -/
inductive FileState where
  | missing
  | present (doc : FileDoc)
deriving DecidableEq

/-- One resolved file reference of the batch loop. -/
structure FileRef where
  name : String
  state : FileState
deriving DecidableEq

/-- The body of the `for path in file_paths` loop of `run_ocr_on_files`:
the single output entry contributed by one file. -/
def fileOutput (multi : Bool) (f : FileRef) : String :=
  match f.state with
  | FileState.missing => "[warning] File not found: " ++ f.name
  | FileState.present doc =>
    match extract_text_from_path doc with
    | Except.error msg => "[error] Failed to process " ++ f.name ++ ": " ++ msg
    | Except.ok text =>
      let body := if text = "" then "(No text detected)" else text
      if multi then "# " ++ f.name ++ "\n" ++ body else body

/-- The accumulation of the `outputs` list across the batch loop. -/
def runLoop (multi : Bool) (outputs : List String) : List FileRef → List String
  | [] => outputs
  | f :: fs => runLoop multi (outputs ++ [fileOutput multi f]) fs

/-- `run_ocr_on_files`: empty resolved list returns `""`; otherwise every
file contributes one entry and the entries are joined with a blank line. -/
def run_ocr_on_files (files : List FileRef) : String :=
  if files = [] then ""
  else pyJoin "\n\n" (runLoop (decide (files.length > 1)) [] files)

/-- The cached EasyOCR reader: the constructor arguments that the model
tracks (language list and the fixed construction flags). -/
structure Reader where
  lang_list : List String
  gpu : Bool
  download_enabled : Bool
deriving DecidableEq

/-- `_DEFAULT_LANGUAGES`. -/
def _DEFAULT_LANGUAGES : List String := ["en"]

/-- `_ensure_reader`: the module-global `_reader` is threaded as explicit
state.  Returns the reader handed to the caller and the new global state.
`list(languages) if languages else _DEFAULT_LANGUAGES` treats both `None`
and an empty sequence as absent. -/
def _ensure_reader (state : Option Reader) (languages : Option (List String)) :
    Reader × Option Reader :=
  match state with
  | some r => (r, some r)
  | none =>
    let langs := match languages with
      | some ls => if ls ≠ [] then ls else _DEFAULT_LANGUAGES
      | none => _DEFAULT_LANGUAGES
    let r : Reader := ⟨langs, false, true⟩
    (r, some r)

/-- The global reader state after a sequence of `_ensure_reader` calls. -/
def acquireSeq (state : Option Reader) : List (Option (List String)) → Option Reader
  | [] => state
  | req :: reqs => acquireSeq (_ensure_reader state req).2 reqs

/-! Definitions following the specification's words, for comparison with
the source-derived functions above. -/

/-- The spec's greedy single-pass grouping rule, stated in its own words:
the first detection seeds a group; each subsequent detection (in sorted
order) joins the current group iff the absolute difference between its
vertical anchor and the vertical anchor of the last detection added to the
current group is at most the threshold, and otherwise starts a new group.
`cur` is the current (always non-empty) group. -/
def chainGroup (threshold : ℚ) (cur : List Item) : List Item → List (List Item)
  | [] => [cur]
  | d :: ds =>
    match cur.getLast? with
    | some last =>
      if |d.vy - last.vy| ≤ threshold then chainGroup threshold (cur ++ [d]) ds
      else cur :: chainGroup threshold [d] ds
    | none => chainGroup threshold [d] ds

/-- The spec's page join, stated in its own words: concatenate exactly the
non-empty page texts, in page order, separated by a blank line; empty
pages contribute nothing. -/
def specJoinPages : List String → String
  | [] => ""
  | t :: ts =>
    let rest := specJoinPages ts
    if t = "" then rest
    else if rest = "" then t
    else t ++ "\n\n" ++ rest

/-- The population over which claim C2 says the median height is taken:
the detections that survive the text filter. -/
def claimSurvivors (results : List RawResult) : List RawResult :=
  results.filter textOk

/-- Claim C2's asserted threshold: `max(0.6 × H, 8.0)` with `H` the median
height over the surviving detections only. -/
def claimThreshold (results : List RawResult) : ℚ :=
  max (0.6 * median ((claimSurvivors results).map detHeight)) 8

/-- A detection whose text is a string stripping to the empty string
(C5's "whitespace-only text"). -/
def whitespaceOnly (r : RawResult) : Bool :=
  match r.text with
  | PyText.str s => pyStrip s = ""
  | PyText.nonstr => false

/-- Whether a detection's text field is a Python string (`isinstance(text, str)`). -/
def isStrText (r : RawResult) : Bool :=
  match r.text with
  | PyText.str _ => true
  | PyText.nonstr => false

/-! Concrete inputs used by witnesses and counterexamples. -/

/-- An axis-aligned box `"Hello"` detection, vertical anchor 5. -/
def exC1a : RawResult := ⟨[(0,0),(10,0),(10,10),(0,10)], PyText.str "Hello", 1⟩

/-- An axis-aligned box `"Second"` detection, vertical anchor 55. -/
def exC1b : RawResult := ⟨[(0,50),(10,50),(10,60),(0,60)], PyText.str "Second", 1⟩

/-- Height-20 surviving detection. -/
def exC2a : RawResult := ⟨[(0,0),(10,0),(10,20),(0,20)], PyText.str "a", 1⟩

/-- Height-100 detection with whitespace-only text: dropped by the text
filter yet counted by the code's height median. -/
def exC2b : RawResult := ⟨[(0,0),(10,0),(10,100),(0,100)], PyText.str " ", 1⟩

/-- Detection `"Hello"` at vertical anchor 5 (far from `exC3b`). -/
def exC3a : RawResult := ⟨[(0,0),(10,0),(10,10),(0,10)], PyText.str "Hello", 1⟩

/-- Detection `"Second"` at vertical anchor 55 (far from `exC3a`). -/
def exC3b : RawResult := ⟨[(0,50),(10,50),(10,60),(0,60)], PyText.str "Second", 1⟩

/-- Detection `"a"`: same region as `exC4b`, so identical anchors. -/
def exC4a : RawResult := ⟨[(0,0),(10,0),(10,10),(0,10)], PyText.str "a", 1⟩

/-- Detection `"b"`: same region as `exC4a`, so identical anchors. -/
def exC4b : RawResult := ⟨[(0,0),(10,0),(10,10),(0,10)], PyText.str "b", 1⟩

/-- Detection `"Hello"` with anchors (5, 5). -/
def exC4c : RawResult := ⟨[(0,0),(10,0),(10,10),(0,10)], PyText.str "Hello", 1⟩

/-- Detection `"World"` with anchors (6, 20). -/
def exC4d : RawResult := ⟨[(15,1),(25,1),(25,11),(15,11)], PyText.str "World", 1⟩

/-- A whitespace-only detection for C5. -/
def exC5a : RawResult := ⟨[(0,0),(10,0),(10,10),(0,10)], PyText.str "  ", 1⟩

/-- A detection reading `"A"` for C6's two-page example. -/
def exC6a : RawResult := ⟨[(0,0),(10,0),(10,10),(0,10)], PyText.str "A", 1⟩

/-- A non-string-text detection for C10. -/
def exC10a : RawResult := ⟨[(0,0),(10,0),(10,10),(0,10)], PyText.nonstr, 1⟩

/-- A second non-string-text detection for C10, different region. -/
def exC10b : RawResult := ⟨[(0,50),(10,50),(10,60),(0,60)], PyText.nonstr, 1⟩

/-! Helper lemmas. -/

instance : IsTotal Item itemLe := by
  constructor
  intro a b
  unfold itemLe
  rcases lt_trichotomy a.vy b.vy with h | h | h
  · exact Or.inl (Or.inl h)
  · rcases le_total a.vx b.vx with h2 | h2
    · exact Or.inl (Or.inr ⟨h, h2⟩)
    · exact Or.inr (Or.inr ⟨h.symm, h2⟩)
  · exact Or.inr (Or.inl h)

instance : IsTrans Item itemLe := by
  constructor
  intro a b c hab hbc
  unfold itemLe at hab hbc ⊢
  rcases hab with h1 | ⟨e1, x1⟩ <;> rcases hbc with h2 | ⟨e2, x2⟩
  · exact Or.inl (h1.trans h2)
  · exact Or.inl (by rw [← e2]; exact h1)
  · exact Or.inl (by rw [e1]; exact h2)
  · exact Or.inr ⟨e1.trans e2, x1.trans x2⟩

instance : IsTotal Item xLe := by
  constructor
  intro a b
  unfold xLe
  exact le_total a.vx b.vx

instance : IsTrans Item xLe := by
  constructor
  intro a b c hab hbc
  unfold xLe at hab hbc ⊢
  exact hab.trans hbc

theorem itemLe_antisymm_keys {a b : Item} (h1 : itemLe a b) (h2 : itemLe b a) :
    a.vy = b.vy ∧ a.vx = b.vx := by
  unfold itemLe at h1 h2
  rcases h1 with h1 | ⟨e1, x1⟩ <;> rcases h2 with h2 | ⟨e2, x2⟩
  · exact absurd h2 (lt_asymm h1)
  · exact absurd h1 (by rw [e2]; exact lt_irrefl a.vy)
  · exact absurd h2 (by rw [e1]; exact lt_irrefl b.vy)
  · exact ⟨e1, le_antisymm x1 x2⟩

theorem mkItem_anchors {r : RawResult} {i : Item} (h : mkItem r = some i) :
    i.vy = rawVy r ∧ i.vx = rawVx r := by
  rcases r with ⟨bbox, t, c⟩
  cases t with
  | str s =>
    by_cases hs : pyStrip s = ""
    · simp [mkItem, hs] at h
    · simp [mkItem, hs] at h
      rw [← h]
      exact ⟨rfl, rfl⟩
  | nonstr => simp [mkItem] at h

theorem mkItem_isSome_eq_textOk (r : RawResult) : (mkItem r).isSome = textOk r := by
  rcases r with ⟨bbox, t, c⟩
  cases t with
  | str s =>
    by_cases hs : pyStrip s = "" <;> simp [mkItem, textOk, hs]
  | nonstr => simp [mkItem, textOk]

theorem mkItem_eq_none_of_not_textOk {r : RawResult} (h : textOk r = false) :
    mkItem r = none := by
  have := mkItem_isSome_eq_textOk r
  rw [h] at this
  exact Option.not_isSome_iff_eq_none.mp (by simp [this])

theorem filterMap_mkItem_length (results : List RawResult)
    (h : ∀ r ∈ results, textOk r = true) :
    (results.filterMap mkItem).length = results.length := by
  induction results with
  | nil => rfl
  | cons r rs ih =>
    have hr : textOk r = true := h r (List.mem_cons_self r rs)
    have : (mkItem r).isSome = true := by rw [mkItem_isSome_eq_textOk, hr]
    obtain ⟨i, hi⟩ := Option.isSome_iff_exists.mp this
    rw [List.filterMap_cons, hi]
    simp only [List.length_cons]
    rw [ih (fun x hx => h x (List.mem_cons_of_mem r hx))]

theorem filterMap_mkItem_nil (results : List RawResult)
    (h : ∀ r ∈ results, textOk r = false) :
    results.filterMap mkItem = [] := by
  induction results with
  | nil => rfl
  | cons r rs ih =>
    rw [List.filterMap_cons, mkItem_eq_none_of_not_textOk (h r (List.mem_cons_self r rs))]
    exact ih (fun x hx => h x (List.mem_cons_of_mem r hx))

theorem groupLoop_eq_chain (t : ℚ) :
    ∀ (rest : List Item) (done : List (List Item)) (cur : List Item), cur ≠ [] →
      groupLoop t (done ++ [cur]) rest = done ++ chainGroup t cur rest := by
  intro rest
  induction rest with
  | nil =>
    intro done cur hcur
    simp [groupLoop, chainGroup]
  | cons item rest ih =>
    intro done cur hcur
    have hlast : cur.getLast? = some (cur.getLast hcur) := List.getLast?_eq_getLast cur hcur
    by_cases hc : |item.vy - (cur.getLast hcur).vy| ≤ t
    · have lhs : groupLoop t (done ++ [cur]) (item :: rest) =
          groupLoop t (done ++ [cur ++ [item]]) rest := by
        simp only [groupLoop, List.getLastD_concat, hlast, if_pos hc, List.dropLast_concat]
      have rhs : chainGroup t cur (item :: rest) = chainGroup t (cur ++ [item]) rest := by
        simp only [chainGroup, hlast, if_pos hc]
      rw [lhs, rhs, ih done (cur ++ [item]) (by simp)]
    · have lhs : groupLoop t (done ++ [cur]) (item :: rest) =
          groupLoop t ((done ++ [cur]) ++ [[item]]) rest := by
        simp only [groupLoop, List.getLastD_concat, hlast, if_neg hc]
      have rhs : chainGroup t cur (item :: rest) = cur :: chainGroup t [item] rest := by
        simp only [chainGroup, hlast, if_neg hc]
      rw [lhs, rhs, ih (done ++ [cur]) [item] (by simp)]
      simp

theorem group_by_line_chain (results : List RawResult) (t : ℚ) (first : Item)
    (rest : List Item) (h : sortedItems results = first :: rest) :
    _group_by_line results t = chainGroup t [first] rest := by
  unfold _group_by_line
  rw [h]
  have := groupLoop_eq_chain t rest [] [first] (by simp)
  simpa using this

theorem chainGroup_single (t : ℚ) :
    ∀ (l : List Item) (a : Item) (cur : List Item), cur.getLast? = some a →
      List.Chain' (fun x y => |y.vy - x.vy| ≤ t) (a :: l) →
      chainGroup t cur l = [cur ++ l] := by
  intro l
  induction l with
  | nil =>
    intro a cur hlast _
    simp [chainGroup]
  | cons d ds ih =>
    intro a cur hlast hch
    rw [List.chain'_cons] at hch
    simp only [chainGroup, hlast, if_pos hch.1]
    rw [ih d (cur ++ [d]) (by simp) hch.2]
    simp

theorem chainGroup_singletons (t : ℚ) :
    ∀ (l : List Item) (a : Item),
      List.Chain' (fun x y => ¬ |y.vy - x.vy| ≤ t) (a :: l) →
      chainGroup t [a] l = (a :: l).map (fun x => [x]) := by
  intro l
  induction l with
  | nil =>
    intro a _
    simp [chainGroup]
  | cons d ds ih =>
    intro a hch
    rw [List.chain'_cons] at hch
    have hl : ([a] : List Item).getLast? = some a := rfl
    simp only [chainGroup, hl, if_neg hch.1]
    rw [ih d hch.2]
    simp

theorem sorted_perm_keys_eq :
    ∀ (l₁ l₂ : List Item), l₁.Perm l₂ → l₁.Sorted itemLe → l₂.Sorted itemLe →
      (l₁.map fun i => (i.vy, i.vx)).Nodup → l₁ = l₂ := by
  intro l₁
  induction l₁ with
  | nil =>
    intro l₂ hp _ _ _
    exact (hp.symm.eq_nil).symm
  | cons a t₁ ih =>
    intro l₂ hp hs₁ hs₂ hnd
    cases l₂ with
    | nil =>
      exact absurd hp.eq_nil (by simp)
    | cons b t₂ =>
      have hab : a = b := by
        have ha2 : a ∈ b :: t₂ := hp.subset (List.mem_cons_self a t₁)
        have hb1 : b ∈ a :: t₁ := hp.symm.subset (List.mem_cons_self b t₂)
        rcases List.mem_cons.mp ha2 with h | ha2m
        · exact h
        rcases List.mem_cons.mp hb1 with h | hb1m
        · exact h.symm
        exfalso
        have l1 : itemLe a b := List.rel_of_sorted_cons hs₁ b hb1m
        have l2 : itemLe b a := List.rel_of_sorted_cons hs₂ a ha2m
        have hk := itemLe_antisymm_keys l1 l2
        rw [List.map_cons, List.nodup_cons] at hnd
        apply hnd.1
        refine List.mem_map.mpr ⟨b, hb1m, ?_⟩
        rw [← hk.1, ← hk.2]
      subst hab
      have htl := ih t₂ hp.cons_inv hs₁.of_cons hs₂.of_cons
        (by rw [List.map_cons, List.nodup_cons] at hnd; exact hnd.2)
      rw [htl]

theorem median_perm {l₁ l₂ : List ℚ} (hp : l₁.Perm l₂) : median l₁ = median l₂ := by
  unfold median
  haveI : IsAntisymm ℚ (fun a b : ℚ => a ≤ b) := ⟨fun _ _ h1 h2 => le_antisymm h1 h2⟩
  haveI : IsTotal ℚ (fun a b : ℚ => a ≤ b) := ⟨fun a b => le_total a b⟩
  haveI : IsTrans ℚ (fun a b : ℚ => a ≤ b) := ⟨fun _ _ _ h1 h2 => h1.trans h2⟩
  have hs : List.insertionSort (fun a b => a ≤ b) l₁ =
      List.insertionSort (fun a b => a ≤ b) l₂ := by
    refine @List.eq_of_perm_of_sorted ℚ (fun a b : ℚ => a ≤ b) _ _ _ ?_ ?_ ?_
    · exact (List.perm_insertionSort _ _).trans (hp.trans (List.perm_insertionSort _ _).symm)
    · exact List.sorted_insertionSort _ _
    · exact List.sorted_insertionSort _ _
  rw [hs, hp.length_eq]

theorem lineSpacingOf_perm {results results2 : List RawResult}
    (hp : results2.Perm results) : lineSpacingOf results2 = lineSpacingOf results := by
  unfold lineSpacingOf typicalHeight
  have hperm : (heightsOf results2).Perm (heightsOf results) := hp.map detHeight
  have hm := median_perm hperm
  by_cases h : heightsOf results = []
  · rw [h] at hperm
    have h2 := hperm.eq_nil
    simp [h, h2]
  · have h2 : heightsOf results2 ≠ [] := by
      intro hc
      rw [hc] at hperm
      exact h hperm.symm.eq_nil
    simp [h, h2, hm]

theorem sortedItems_perm_eq {results results2 : List RawResult}
    (hp : results2.Perm results)
    (hkeys : ((results.filterMap mkItem).map fun i => (i.vy, i.vx)).Nodup) :
    sortedItems results2 = sortedItems results := by
  have hperm : (sortedItems results2).Perm (sortedItems results) :=
    (List.perm_insertionSort _ _).trans
      ((hp.filterMap mkItem).trans (List.perm_insertionSort _ _).symm)
  apply sorted_perm_keys_eq _ _ hperm
  · exact List.sorted_insertionSort _ _
  · exact List.sorted_insertionSort _ _
  · have h2 : ((sortedItems results2).map fun i => (i.vy, i.vx)).Perm
        ((results.filterMap mkItem).map fun i => (i.vy, i.vx)) :=
      ((List.perm_insertionSort _ _).trans (hp.filterMap mkItem)).map _
    exact (h2.nodup_iff).mpr hkeys

theorem format_results_perm {results results2 : List RawResult}
    (hp : results2.Perm results)
    (hkeys : ((results.filterMap mkItem).map fun i => (i.vy, i.vx)).Nodup) :
    _format_results results2 = _format_results results := by
  unfold _format_results _group_by_line
  rw [sortedItems_perm_eq hp hkeys, lineSpacingOf_perm hp]
  by_cases h : results = []
  · have h2 : results2 = [] := by rw [h] at hp; exact hp.eq_nil
    simp [h, h2]
  · have h2 : results2 ≠ [] := by
      intro hc
      rw [hc] at hp
      exact h hp.symm.eq_nil
    simp [h, h2]

theorem string_append_ne_empty_left {s : String} (t : String) (h : s ≠ "") :
    s ++ t ≠ "" := by
  intro he
  apply h
  have hd : (s ++ t).data = [] := by rw [he]
  rw [String.data_append] at hd
  rcases List.append_eq_nil.mp hd with ⟨hs, _⟩
  exact String.ext hs

theorem pyJoin_ne_empty (sep : String) (ts : List String) (t : String) (ht : t ≠ "") :
    pyJoin sep (t :: ts) ≠ "" := by
  cases ts with
  | nil => simpa [pyJoin] using ht
  | cons u us =>
    show t ++ sep ++ pyJoin sep (u :: us) ≠ ""
    exact string_append_ne_empty_left _ (string_append_ne_empty_left _ ht)

theorem pyJoin_filter_eq_specJoin (ts : List String) :
    pyJoin "\n\n" (ts.filter (fun t => t ≠ "")) = specJoinPages ts := by
  induction ts with
  | nil => rfl
  | cons t ts ih =>
    by_cases ht : t = ""
    · subst ht
      rw [List.filter_cons_of_neg (by simp)]
      rw [ih]
      simp [specJoinPages]
    · rw [List.filter_cons_of_pos (by simpa using ht)]
      cases hf : ts.filter (fun t => t ≠ "") with
      | nil =>
        have hrest : specJoinPages ts = "" := by rw [← ih, hf]; rfl
        simp [pyJoin, specJoinPages, ht, hrest]
      | cons u us =>
        have hu : u ≠ "" := by
          have hm : u ∈ ts.filter (fun t => t ≠ "") := by
            rw [hf]
            exact List.mem_cons_self u us
          simpa using (List.mem_filter.mp hm).2
        have hrest : specJoinPages ts ≠ "" := by
          rw [← ih, hf]
          exact pyJoin_ne_empty "\n\n" us u hu
        show pyJoin "\n\n" (t :: u :: us) = specJoinPages (t :: ts)
        have hl : pyJoin "\n\n" (t :: u :: us) = t ++ "\n\n" ++ pyJoin "\n\n" (u :: us) := rfl
        rw [hl]
        simp only [specJoinPages, if_neg ht, if_neg hrest]
        rw [← ih, hf]

theorem runLoop_eq_map (m : Bool) (files : List FileRef) :
    ∀ acc : List String, runLoop m acc files = acc ++ files.map (fileOutput m) := by
  induction files with
  | nil =>
    intro acc
    simp [runLoop]
  | cons f fs ih =>
    intro acc
    rw [runLoop, ih]
    simp

theorem acquireSeq_some (r : Reader) (reqs : List (Option (List String))) :
    acquireSeq (some r) reqs = some r := by
  induction reqs with
  | nil => rfl
  | cons q qs ih => simpa [acquireSeq, _ensure_reader] using ih

theorem ensure_none_snd (langs : Option (List String)) :
    (_ensure_reader none langs).2 = some (_ensure_reader none langs).1 := by
  rcases langs with _ | ls
  · rfl
  · by_cases h : ls = [] <;> simp [_ensure_reader, h]

theorem filterMap_mkItem_filter_str (results : List RawResult) :
    (results.filter isStrText).filterMap mkItem = results.filterMap mkItem := by
  induction results with
  | nil => rfl
  | cons r rs ih =>
    rcases r with ⟨bbox, t, c⟩
    cases t with
    | str s =>
      rw [List.filter_cons_of_pos (by simp [isStrText])]
      rw [List.filterMap_cons, List.filterMap_cons, ih]
    | nonstr =>
      rw [List.filter_cons_of_neg (by simp [isStrText])]
      rw [List.filterMap_cons]
      simp only [mkItem]
      exact ih

/-! Claim theorems. -/

/-- C1: for every non-empty filtered detection set, the Line Reconstructor
first sorts the surviving detections ascending by the pair
(vertical anchor, horizontal anchor) - each anchor the arithmetic mean of
the region's y- (resp. x-) coordinates - and then groups greedily in a
single pass: the first detection seeds a group and each subsequent one
joins the current group iff the absolute difference between its vertical
anchor and that of the last detection added to the current group is at
most the line-spacing threshold (`chainGroup`, the spec's rule). -/
theorem C1_sorts_then_groups_greedily (results : List RawResult) (t : ℚ)
    (first : Item) (rest : List Item)
    (h : sortedItems results = first :: rest) :
    (sortedItems results).Perm (results.filterMap mkItem) ∧
    (sortedItems results).Sorted itemLe ∧
    (∀ r ∈ results, ∀ i, mkItem r = some i → i.vy = rawVy r ∧ i.vx = rawVx r) ∧
    _group_by_line results t = chainGroup t [first] rest := by
  refine ⟨List.perm_insertionSort _ _, List.sorted_insertionSort _ _, ?_,
    group_by_line_chain results t first rest h⟩
  intro r _ i hi
  exact mkItem_anchors hi

/-- Witness for C1 at a concrete two-detection input. -/
theorem C1_witness :
    _group_by_line [exC1a, exC1b] 8 =
      chainGroup 8 [⟨5, 5, [(0,0),(10,0),(10,10),(0,10)], "Hello"⟩]
        [⟨55, 5, [(0,50),(10,50),(10,60),(0,60)], "Second"⟩] := by
  have h : sortedItems [exC1a, exC1b] =
      [⟨5, 5, [(0,0),(10,0),(10,10),(0,10)], "Hello"⟩,
       ⟨55, 5, [(0,50),(10,50),(10,60),(0,60)], "Second"⟩] := by
    norm_num [sortedItems, exC1a, exC1b, mkItem, pyStrip, npMean,
      List.insertionSort, List.orderedInsert, itemLe]
  exact (C1_sorts_then_groups_greedily [exC1a, exC1b] 8 _ _ h).2.2.2

/-- C2 counterexample: with one surviving height-20 detection and one
whitespace-text height-100 detection, the code's threshold (median over
ALL detections, 36) differs from the claimed threshold (median over the
survivors only, 12). -/
theorem C2_cex :
    lineSpacingOf [exC2a, exC2b] = 36 ∧
    claimThreshold [exC2a, exC2b] = 12 ∧
    lineSpacingOf [exC2a, exC2b] ≠ claimThreshold [exC2a, exC2b] := by
  have h1 : textOk exC2a = true := by decide
  have h2 : textOk exC2b = false := by decide
  have hha : detHeight exC2a = 20 := by norm_num [detHeight, exC2a, listMax, listMin]
  have hhb : detHeight exC2b = 100 := by norm_num [detHeight, exC2b, listMax, listMin]
  have hls : lineSpacingOf [exC2a, exC2b] = 36 := by
    simp only [lineSpacingOf, typicalHeight, heightsOf, List.map_cons, List.map_nil, hha, hhb]
    rw [if_pos (show ([20, 100] : List ℚ) ≠ [] by simp)]
    norm_num [median, List.insertionSort, List.orderedInsert]
  have hsurv : claimSurvivors [exC2a, exC2b] = [exC2a] := by
    simp [claimSurvivors, List.filter_cons, h1, h2]
  have hct : claimThreshold [exC2a, exC2b] = 12 := by
    rw [claimThreshold, hsurv]
    simp only [List.map_cons, List.map_nil, hha]
    norm_num [median, List.insertionSort, List.orderedInsert]
  refine ⟨hls, hct, ?_⟩
  rw [hls, hct]
  norm_num

/-- C2 (amended): the line-spacing threshold equals max(0.6 × H, 8.0) where
H is the median of per-detection heights (max region y-coordinate minus min
region y-coordinate) over ALL detections of the raw result list - the
empty-trimmed-text filter is applied only later, inside `_group_by_line`,
so dropped detections still contribute their heights to the median. -/
theorem C2_threshold_median_all (results : List RawResult) (hne : results ≠ []) :
    lineSpacingOf results = max (0.6 * median (results.map detHeight)) 8 := by
  simp only [lineSpacingOf, typicalHeight, heightsOf]
  have hmap : ¬(results.map detHeight = []) := by simpa using hne
  rw [if_pos hmap, mul_comm]

/-- Witness for C2's amended theorem at a concrete one-detection input. -/
theorem C2_witness :
    lineSpacingOf [exC2a] = max (0.6 * median ([exC2a].map detHeight)) 8 :=
  C2_threshold_median_all [exC2a] (by decide)

/-- C3: for a detection set with non-empty trimmed texts in which the
vertical anchors of every two detections differ by strictly more than the
line-spacing threshold, the Line Reconstructor produces exactly N line
groups for N detections, each a singleton. -/
theorem C3_far_apart_one_line_each (results : List RawResult)
    (htxt : ∀ r ∈ results, textOk r = true)
    (hsep : results.Pairwise (fun a b => lineSpacingOf results < |rawVy a - rawVy b|)) :
    (_group_by_line results (lineSpacingOf results)).length = results.length ∧
    ∀ g ∈ _group_by_line results (lineSpacingOf results), g.length = 1 := by
  have hitems : (results.filterMap mkItem).Pairwise
      (fun i j : Item => lineSpacingOf results < |i.vy - j.vy|) := by
    rw [List.pairwise_filterMap]
    refine hsep.imp ?_
    intro a b hab i hi j hj
    obtain ⟨h1, _⟩ := mkItem_anchors (Option.mem_def.mp hi)
    obtain ⟨h2, _⟩ := mkItem_anchors (Option.mem_def.mp hj)
    rw [h1, h2]
    exact hab
  have hsorted : (sortedItems results).Pairwise
      (fun i j : Item => lineSpacingOf results < |i.vy - j.vy|) :=
    (List.Perm.pairwise_iff (fun h => by rwa [abs_sub_comm] at h)
      (List.perm_insertionSort itemLe (results.filterMap mkItem))).mpr hitems
  have hlen : (sortedItems results).length = results.length := by
    unfold sortedItems
    rw [(List.perm_insertionSort itemLe (results.filterMap mkItem)).length_eq]
    exact filterMap_mkItem_length results htxt
  cases hL : sortedItems results with
  | nil =>
    have h0 : results.length = 0 := by rw [← hlen, hL]; rfl
    have hres : results = [] := List.length_eq_zero.mp h0
    subst hres
    exact ⟨rfl, by intro g hg; simp [_group_by_line, sortedItems] at hg⟩
  | cons first rest =>
    rw [group_by_line_chain results _ first rest hL]
    rw [hL] at hsorted
    have hchain : List.Chain'
        (fun x y : Item => ¬ |y.vy - x.vy| ≤ lineSpacingOf results) (first :: rest) := by
      refine (hsorted.chain').imp ?_
      intro a b h
      rw [abs_sub_comm]
      exact not_le.mpr h
    rw [chainGroup_singletons _ rest first hchain]
    constructor
    · rw [List.length_map, ← hL, hlen]
    · intro g hg
      rw [List.mem_map] at hg
      obtain ⟨x, _, rfl⟩ := hg
      rfl

/-- Witness for C3 at two detections 50 apart with threshold 8. -/
theorem C3_witness :
    (_group_by_line [exC3a, exC3b] (lineSpacingOf [exC3a, exC3b])).length = 2 := by
  have hls : lineSpacingOf [exC3a, exC3b] = 8 := by
    have hha : detHeight exC3a = 10 := by norm_num [detHeight, exC3a, listMax, listMin]
    have hhb : detHeight exC3b = 10 := by norm_num [detHeight, exC3b, listMax, listMin]
    simp only [lineSpacingOf, typicalHeight, heightsOf, List.map_cons, List.map_nil, hha, hhb]
    rw [if_pos (show ([10, 10] : List ℚ) ≠ [] by simp)]
    norm_num [median, List.insertionSort, List.orderedInsert]
  have hsep : ([exC3a, exC3b] : List RawResult).Pairwise
      (fun a b => lineSpacingOf [exC3a, exC3b] < |rawVy a - rawVy b|) := by
    rw [hls]
    refine List.Pairwise.cons ?_ (List.Pairwise.cons (by simp) List.Pairwise.nil)
    intro b hb
    simp only [List.mem_cons, List.not_mem_nil, or_false] at hb
    subst hb
    norm_num [rawVy, npMean, exC3a, exC3b]
  exact (C3_far_apart_one_line_each [exC3a, exC3b] (by decide) hsep).1

/-- C4 counterexample: two detections with identical regions (hence
identical anchors, trivially chained within the threshold 8) and texts
`"a"`, `"b"`.  Reversing the input order reverses the rendered line, so
the output is not invariant under permutation of the input sequence. -/
theorem C4_cex :
    lineSpacingOf [exC4a, exC4b] = 8 ∧
    (sortedItems [exC4a, exC4b]).map Item.vy = [5, 5] ∧
    _format_results [exC4a, exC4b] = "a b" ∧
    _format_results [exC4b, exC4a] = "b a" := by
  have hma : mkItem exC4a = some ⟨5, 5, [(0,0),(10,0),(10,10),(0,10)], "a"⟩ := by
    simp only [exC4a, mkItem]
    rw [if_pos (by decide : pyStrip "a" ≠ "")]
    norm_num [npMean]
  have hmb : mkItem exC4b = some ⟨5, 5, [(0,0),(10,0),(10,10),(0,10)], "b"⟩ := by
    simp only [exC4b, mkItem]
    rw [if_pos (by decide : pyStrip "b" ≠ "")]
    norm_num [npMean]
  have hgl : ([⟨5, 5, [(0,0),(10,0),(10,10),(0,10)], "a"⟩] : List Item).getLast? =
      some ⟨5, 5, [(0,0),(10,0),(10,10),(0,10)], "a"⟩ := rfl
  have hgl2 : ([⟨5, 5, [(0,0),(10,0),(10,10),(0,10)], "b"⟩] : List Item).getLast? =
      some ⟨5, 5, [(0,0),(10,0),(10,10),(0,10)], "b"⟩ := rfl
  have hsort : sortedItems [exC4a, exC4b] =
      [⟨5, 5, [(0,0),(10,0),(10,10),(0,10)], "a"⟩,
       ⟨5, 5, [(0,0),(10,0),(10,10),(0,10)], "b"⟩] := by
    unfold sortedItems
    simp only [List.filterMap_cons, List.filterMap_nil, hma, hmb]
    simp only [List.insertionSort, List.orderedInsert]
    rw [if_pos (by norm_num [itemLe] :
      itemLe ⟨5, 5, [(0,0),(10,0),(10,10),(0,10)], "a"⟩
        ⟨5, 5, [(0,0),(10,0),(10,10),(0,10)], "b"⟩)]
  have hsort2 : sortedItems [exC4b, exC4a] =
      [⟨5, 5, [(0,0),(10,0),(10,10),(0,10)], "b"⟩,
       ⟨5, 5, [(0,0),(10,0),(10,10),(0,10)], "a"⟩] := by
    unfold sortedItems
    simp only [List.filterMap_cons, List.filterMap_nil, hma, hmb]
    simp only [List.insertionSort, List.orderedInsert]
    rw [if_pos (by norm_num [itemLe] :
      itemLe ⟨5, 5, [(0,0),(10,0),(10,10),(0,10)], "b"⟩
        ⟨5, 5, [(0,0),(10,0),(10,10),(0,10)], "a"⟩)]
  have hh : detHeight exC4a = 10 := by norm_num [detHeight, exC4a, listMax, listMin]
  have hh2 : detHeight exC4b = 10 := by norm_num [detHeight, exC4b, listMax, listMin]
  have hls : lineSpacingOf [exC4a, exC4b] = 8 := by
    simp only [lineSpacingOf, typicalHeight, heightsOf, List.map_cons, List.map_nil, hh, hh2]
    rw [if_pos (show ([10, 10] : List ℚ) ≠ [] by simp)]
    norm_num [median, List.insertionSort, List.orderedInsert]
  have hls2 : lineSpacingOf [exC4b, exC4a] = 8 := by
    simp only [lineSpacingOf, typicalHeight, heightsOf, List.map_cons, List.map_nil, hh, hh2]
    rw [if_pos (show ([10, 10] : List ℚ) ≠ [] by simp)]
    norm_num [median, List.insertionSort, List.orderedInsert]
  have hgrp : _group_by_line [exC4a, exC4b] 8 =
      [[⟨5, 5, [(0,0),(10,0),(10,10),(0,10)], "a"⟩,
        ⟨5, 5, [(0,0),(10,0),(10,10),(0,10)], "b"⟩]] := by
    rw [group_by_line_chain [exC4a, exC4b] 8 _ _ hsort]
    norm_num [chainGroup, hgl]
  have hgrp2 : _group_by_line [exC4b, exC4a] 8 =
      [[⟨5, 5, [(0,0),(10,0),(10,10),(0,10)], "b"⟩,
        ⟨5, 5, [(0,0),(10,0),(10,10),(0,10)], "a"⟩]] := by
    rw [group_by_line_chain [exC4b, exC4a] 8 _ _ hsort2]
    norm_num [chainGroup, hgl2]
  have hline : lineText [⟨5, 5, [(0,0),(10,0),(10,10),(0,10)], "a"⟩,
      ⟨5, 5, [(0,0),(10,0),(10,10),(0,10)], "b"⟩] = "a b" := by
    unfold lineText
    have hx : List.insertionSort xLe
        [⟨5, 5, [(0,0),(10,0),(10,10),(0,10)], "a"⟩,
         ⟨5, 5, [(0,0),(10,0),(10,10),(0,10)], "b"⟩] =
        [⟨5, 5, [(0,0),(10,0),(10,10),(0,10)], "a"⟩,
         ⟨5, 5, [(0,0),(10,0),(10,10),(0,10)], "b"⟩] := by
      simp only [List.insertionSort, List.orderedInsert]
      rw [if_pos (by norm_num [xLe] :
        xLe ⟨5, 5, [(0,0),(10,0),(10,10),(0,10)], "a"⟩
          ⟨5, 5, [(0,0),(10,0),(10,10),(0,10)], "b"⟩)]
    rw [hx]
    decide
  have hline2 : lineText [⟨5, 5, [(0,0),(10,0),(10,10),(0,10)], "b"⟩,
      ⟨5, 5, [(0,0),(10,0),(10,10),(0,10)], "a"⟩] = "b a" := by
    unfold lineText
    have hx : List.insertionSort xLe
        [⟨5, 5, [(0,0),(10,0),(10,10),(0,10)], "b"⟩,
         ⟨5, 5, [(0,0),(10,0),(10,10),(0,10)], "a"⟩] =
        [⟨5, 5, [(0,0),(10,0),(10,10),(0,10)], "b"⟩,
         ⟨5, 5, [(0,0),(10,0),(10,10),(0,10)], "a"⟩] := by
      simp only [List.insertionSort, List.orderedInsert]
      rw [if_pos (by norm_num [xLe] :
        xLe ⟨5, 5, [(0,0),(10,0),(10,10),(0,10)], "b"⟩
          ⟨5, 5, [(0,0),(10,0),(10,10),(0,10)], "a"⟩)]
    rw [hx]
    decide
  refine ⟨hls, by rw [hsort]; rfl, ?_, ?_⟩
  · unfold _format_results
    rw [if_neg (by simp : ¬([exC4a, exC4b] : List RawResult) = [])]
    rw [hls, hgrp]
    simp only [List.map_cons, List.map_nil]
    rw [hline]
    decide
  · unfold _format_results
    rw [if_neg (by simp : ¬([exC4b, exC4a] : List RawResult) = [])]
    rw [hls2, hgrp2]
    simp only [List.map_cons, List.map_nil]
    rw [hline2]
    decide

/-- C4 (amended): for a non-empty detection set with non-empty trimmed
texts whose anchor pairs are pairwise distinct, if in the sorted order
each detection's vertical anchor is within the line-spacing threshold of
its chain predecessor's, then the Line Reconstructor produces exactly one
line group, the page text is that single line rendered with its members
re-sorted by ascending horizontal anchor, and the output is invariant
under any permutation of the input detection sequence.  (The claim as
stated, without the distinct-anchor proviso, is refuted by `C4_cex`:
detections with identical anchor pairs keep their input order under the
stable sorts, so permuting them permutes the rendered text.) -/
theorem C4_single_line (results : List RawResult)
    (hne : results ≠ [])
    (htxt : ∀ r ∈ results, textOk r = true)
    (hkeys : ((results.filterMap mkItem).map fun i => (i.vy, i.vx)).Nodup)
    (hchain : List.Chain' (fun a b => |b.vy - a.vy| ≤ lineSpacingOf results)
      (sortedItems results)) :
    ∃ g, _group_by_line results (lineSpacingOf results) = [g] ∧
      _format_results results = lineText g ∧
      ((List.insertionSort xLe g).map Item.vx).Sorted (fun a b => a ≤ b) ∧
      ∀ results2, results2.Perm results → _format_results results2 = _format_results results := by
  have hlen : (sortedItems results).length = results.length := by
    unfold sortedItems
    rw [(List.perm_insertionSort itemLe (results.filterMap mkItem)).length_eq]
    exact filterMap_mkItem_length results htxt
  cases hL : sortedItems results with
  | nil =>
    exfalso
    rw [hL] at hlen
    exact hne (List.length_eq_zero.mp hlen.symm)
  | cons first rest =>
    rw [hL] at hchain
    have hone : chainGroup (lineSpacingOf results) [first] rest = [first :: rest] := by
      simpa using chainGroup_single (lineSpacingOf results) rest first [first] rfl hchain
    refine ⟨first :: rest, ?_, ?_, ?_, ?_⟩
    · rw [group_by_line_chain results _ first rest hL, hone]
    · unfold _format_results
      rw [if_neg hne, group_by_line_chain results _ first rest hL, hone]
      simp [pyJoin]
    · exact List.Pairwise.map Item.vx (fun a b h => h)
        (List.sorted_insertionSort xLe (first :: rest))
    · intro results2 hp
      exact format_results_perm hp hkeys

/-- Witness for C4's amended theorem at the spec's Hello/World example. -/
theorem C4_witness :
    _format_results [exC4d, exC4c] = _format_results [exC4c, exC4d] ∧
    (_group_by_line [exC4c, exC4d] (lineSpacingOf [exC4c, exC4d])).length = 1 := by
  have hmc : mkItem exC4c = some ⟨5, 5, [(0,0),(10,0),(10,10),(0,10)], "Hello"⟩ := by
    simp only [exC4c, mkItem]
    rw [if_pos (by decide : pyStrip "Hello" ≠ "")]
    norm_num [npMean]
  have hmd : mkItem exC4d = some ⟨6, 20, [(15,1),(25,1),(25,11),(15,11)], "World"⟩ := by
    simp only [exC4d, mkItem]
    rw [if_pos (by decide : pyStrip "World" ≠ "")]
    norm_num [npMean]
  have hkeys : (([exC4c, exC4d].filterMap mkItem).map fun i => (i.vy, i.vx)).Nodup := by
    simp only [List.filterMap_cons, List.filterMap_nil, hmc, hmd, List.map_cons, List.map_nil]
    norm_num
  have hsort : sortedItems [exC4c, exC4d] =
      [⟨5, 5, [(0,0),(10,0),(10,10),(0,10)], "Hello"⟩,
       ⟨6, 20, [(15,1),(25,1),(25,11),(15,11)], "World"⟩] := by
    unfold sortedItems
    simp only [List.filterMap_cons, List.filterMap_nil, hmc, hmd]
    simp only [List.insertionSort, List.orderedInsert]
    rw [if_pos (by norm_num [itemLe] :
      itemLe ⟨5, 5, [(0,0),(10,0),(10,10),(0,10)], "Hello"⟩
        ⟨6, 20, [(15,1),(25,1),(25,11),(15,11)], "World"⟩)]
  have hh : detHeight exC4c = 10 := by norm_num [detHeight, exC4c, listMax, listMin]
  have hh2 : detHeight exC4d = 10 := by norm_num [detHeight, exC4d, listMax, listMin]
  have hls : lineSpacingOf [exC4c, exC4d] = 8 := by
    simp only [lineSpacingOf, typicalHeight, heightsOf, List.map_cons, List.map_nil, hh, hh2]
    rw [if_pos (show ([10, 10] : List ℚ) ≠ [] by simp)]
    norm_num [median, List.insertionSort, List.orderedInsert]
  have hchain : List.Chain'
      (fun a b : Item => |b.vy - a.vy| ≤ lineSpacingOf [exC4c, exC4d])
      (sortedItems [exC4c, exC4d]) := by
    rw [hsort, hls]
    refine List.chain'_cons.mpr ⟨by norm_num, ?_⟩
    exact List.chain'_singleton _
  obtain ⟨g, h1, h2, h3, h4⟩ :=
    C4_single_line [exC4c, exC4d] (by decide) (by decide) hkeys hchain
  refine ⟨h4 [exC4d, exC4c] (List.Perm.swap exC4c exC4d []), ?_⟩
  rw [h1]
  rfl

/-- C5: for an empty detection set, or one whose detections all have
whitespace-only text, the Line Reconstructor returns the empty string, the
Document Walker consequently returns `Except.ok ""` for such an image
file, and the `(No text detected)` placeholder is substituted only by the
Batch Driver. -/
theorem C5_empty_or_whitespace (results : List RawResult) (name : String)
    (hws : ∀ r ∈ results, whitespaceOnly r = true) :
    _format_results results = "" ∧
    extract_text_from_path ⟨".png", [], results⟩ = Except.ok "" ∧
    run_ocr_on_files [⟨name, FileState.present ⟨".png", [], results⟩⟩] =
      "(No text detected)" := by
  have hnone : ∀ r ∈ results, textOk r = false := by
    intro r hr
    have hw := hws r hr
    rcases r with ⟨bbox, t, c⟩
    cases t with
    | str s =>
      simp only [whitespaceOnly, decide_eq_true_eq] at hw
      simp [textOk, hw]
    | nonstr => simp [textOk]
  have hfm : results.filterMap mkItem = [] := filterMap_mkItem_nil results hnone
  have hfr : _format_results results = "" := by
    unfold _format_results
    by_cases h : results = []
    · rw [if_pos h]
    · rw [if_neg h]
      unfold _group_by_line sortedItems
      rw [hfm]
      rfl
  have hex : extract_text_from_path ⟨".png", [], results⟩ = Except.ok "" := by
    simp only [extract_text_from_path]
    rw [show pyLower ".png" = ".png" from by decide]
    rw [if_neg (by decide : ¬(".png" : String) = ".pdf")]
    rw [if_pos (by decide : (".png" : String) ∈ _SUPPORTED_IMAGE_EXTS)]
    unfold extract_text_from_image
    rw [hfr]
  refine ⟨hfr, hex, ?_⟩
  unfold run_ocr_on_files
  rw [if_neg (List.cons_ne_nil _ _)]
  simp only [List.length_cons, List.length_nil]
  rw [show decide ((0 + 1 : Nat) > 1) = false from rfl]
  simp only [runLoop, List.nil_append]
  simp only [fileOutput, hex]
  simp [pyJoin]

/-- Witness for C5 at a single whitespace-text detection. -/
theorem C5_witness :
    _format_results [exC5a] = "" ∧
    extract_text_from_path ⟨".png", [], [exC5a]⟩ = Except.ok "" ∧
    run_ocr_on_files [⟨"x.png", FileState.present ⟨".png", [], [exC5a]⟩⟩] =
      "(No text detected)" :=
  C5_empty_or_whitespace [exC5a] "x.png" (by decide)

/-- C6: the Document Text of a multi-page document is the concatenation of
exactly the non-empty Page Texts, in page order, separated by a blank line
(`specJoinPages`, the spec's join); in particular a page yielding `"A"`
followed by an empty page gives `"A"` with no stray blank-line pair. -/
theorem C6_join_nonempty_pages (pages : List (List RawResult)) :
    extract_text_from_pdf pages = specJoinPages (pages.map extract_text_from_image) ∧
    extract_text_from_pdf [[exC6a], []] = "A" := by
  constructor
  · unfold extract_text_from_pdf
    exact pyJoin_filter_eq_specJoin (pages.map extract_text_from_image)
  · have hm : mkItem exC6a = some ⟨5, 5, [(0,0),(10,0),(10,10),(0,10)], "A"⟩ := by
      simp only [exC6a, mkItem]
      rw [if_pos (by decide : pyStrip "A" ≠ "")]
      norm_num [npMean]
    have hsort : sortedItems [exC6a] = [⟨5, 5, [(0,0),(10,0),(10,10),(0,10)], "A"⟩] := by
      unfold sortedItems
      simp only [List.filterMap_cons, List.filterMap_nil, hm]
      rfl
    have hh : detHeight exC6a = 10 := by norm_num [detHeight, exC6a, listMax, listMin]
    have hls : lineSpacingOf [exC6a] = 8 := by
      simp only [lineSpacingOf, typicalHeight, heightsOf, List.map_cons, List.map_nil, hh]
      rw [if_pos (show ([10] : List ℚ) ≠ [] by simp)]
      norm_num [median, List.insertionSort, List.orderedInsert]
    have hfr : _format_results [exC6a] = "A" := by
      unfold _format_results
      rw [if_neg (by simp : ¬([exC6a] : List RawResult) = [])]
      rw [hls, group_by_line_chain [exC6a] 8 _ _ hsort]
      decide
    unfold extract_text_from_pdf
    simp only [List.map_cons, List.map_nil]
    unfold extract_text_from_image
    rw [hfr, show _format_results ([] : List RawResult) = "" from rfl]
    decide

/-- C7: the Document Walker fails exactly when the lowercased extension is
neither `.pdf` nor a supported image extension; in that case the error is
`Unsupported file type: <extension>` and the Batch Driver surfaces it as
`[error] Failed to process <name>: <message>`. -/
theorem C7_unsupported_extension (doc : FileDoc) (name : String) (multi : Bool) :
    ((extract_text_from_path doc).isOk ↔
      (pyLower doc.suffix = ".pdf" ∨ pyLower doc.suffix ∈ _SUPPORTED_IMAGE_EXTS)) ∧
    (pyLower doc.suffix ≠ ".pdf" → pyLower doc.suffix ∉ _SUPPORTED_IMAGE_EXTS →
      extract_text_from_path doc =
        Except.error ("Unsupported file type: " ++ pyLower doc.suffix) ∧
      fileOutput multi ⟨name, FileState.present doc⟩ =
        "[error] Failed to process " ++ name ++ ": " ++
          ("Unsupported file type: " ++ pyLower doc.suffix)) := by
  constructor
  · unfold extract_text_from_path
    by_cases h1 : pyLower doc.suffix = ".pdf"
    · rw [if_pos h1]
      simp [Except.isOk, Except.toBool, h1]
    · rw [if_neg h1]
      by_cases h2 : pyLower doc.suffix ∈ _SUPPORTED_IMAGE_EXTS
      · rw [if_pos h2]
        simp [Except.isOk, Except.toBool, h1, h2]
      · rw [if_neg h2]
        simp [Except.isOk, Except.toBool, h1, h2]
  · intro h1 h2
    have hex : extract_text_from_path doc =
        Except.error ("Unsupported file type: " ++ pyLower doc.suffix) := by
      unfold extract_text_from_path
      rw [if_neg h1, if_neg h2]
    refine ⟨hex, ?_⟩
    simp only [fileOutput, hex]

/-- Witness for C7 at a `.docx` file. -/
theorem C7_witness :
    extract_text_from_path ⟨".docx", [], []⟩ =
      Except.error ("Unsupported file type: " ++ pyLower ".docx") ∧
    fileOutput false ⟨"x.docx", FileState.present ⟨".docx", [], []⟩⟩ =
      "[error] Failed to process " ++ "x.docx" ++ ": " ++
        ("Unsupported file type: " ++ pyLower ".docx") :=
  (C7_unsupported_extension ⟨".docx", [], []⟩ "x.docx" false).2 (by decide) (by decide)

/-- C8: the first `_ensure_reader` call constructs a reader bound to the
requested language list (or the default `["en"]` when the argument is
`None` or empty) and stores it; every later call - with any language
argument - returns the same stored reader, so the bound language set
never changes after construction. -/
theorem C8_engine_session_singleton (r : Reader) (langs : Option (List String))
    (ls : List String) (reqs : List (Option (List String)))
    (req0 : Option (List String)) :
    _ensure_reader (some r) langs = (r, some r) ∧
    (_ensure_reader none none).1.lang_list = ["en"] ∧
    (_ensure_reader none (some [])).1.lang_list = ["en"] ∧
    (ls ≠ [] → (_ensure_reader none (some ls)).1.lang_list = ls) ∧
    (_ensure_reader none langs).2 = some (_ensure_reader none langs).1 ∧
    acquireSeq (some r) reqs = some r ∧
    acquireSeq none (req0 :: reqs) = some (_ensure_reader none req0).1 := by
  refine ⟨rfl, rfl, rfl, ?_, ensure_none_snd langs, acquireSeq_some r reqs, ?_⟩
  · intro h
    simp [_ensure_reader, h]
  · show acquireSeq (_ensure_reader none req0).2 reqs = some (_ensure_reader none req0).1
    rw [ensure_none_snd req0]
    exact acquireSeq_some _ reqs

/-- Witness for C8 at concrete language requests. -/
theorem C8_witness :
    _ensure_reader (some ⟨["en"], false, true⟩) (some ["fr"]) =
      (⟨["en"], false, true⟩, some ⟨["en"], false, true⟩) ∧
    (_ensure_reader none (some ["fr", "de"])).1.lang_list = ["fr", "de"] ∧
    acquireSeq none [some ["fr", "de"], some ["ja"]] =
      some (_ensure_reader none (some ["fr", "de"])).1 := by
  obtain ⟨h1, _, _, h4, _, _, h7⟩ :=
    C8_engine_session_singleton ⟨["en"], false, true⟩ (some ["fr"]) ["fr", "de"]
      [some ["ja"]] (some ["fr", "de"])
  exact ⟨h1, h4 (by decide), h7⟩

/-- C9: the Batch Driver is total over its abstracted per-file outcomes:
every file contributes exactly one entry (so no failure aborts the batch),
a missing file contributes the `[warning]` line, a Document Walker error
contributes the `[error]` line, and the result is all entries joined with
a blank line. -/
theorem C9_batch_never_fails (files : List FileRef) (name : String) (doc : FileDoc)
    (m : Bool) (msg : String) :
    run_ocr_on_files files =
      pyJoin "\n\n" (files.map (fileOutput (decide (files.length > 1)))) ∧
    fileOutput m ⟨name, FileState.missing⟩ = "[warning] File not found: " ++ name ∧
    (extract_text_from_path doc = Except.error msg →
      fileOutput m ⟨name, FileState.present doc⟩ =
        "[error] Failed to process " ++ name ++ ": " ++ msg) := by
  refine ⟨?_, rfl, ?_⟩
  · unfold run_ocr_on_files
    by_cases h : files = []
    · subst h
      rfl
    · rw [if_neg h, runLoop_eq_map (decide (files.length > 1)) files []]
      simp
  · intro h
    simp only [fileOutput, h]

/-- Witness for C9: a missing file followed by an unsupported file, both
reported, joined with a blank line. -/
theorem C9_witness :
    run_ocr_on_files
      [⟨"missing.png", FileState.missing⟩,
       ⟨"x.docx", FileState.present ⟨".docx", [], []⟩⟩] =
      "[warning] File not found: missing.png" ++ "\n\n" ++
        ("[error] Failed to process " ++ "x.docx" ++ ": " ++
          ("Unsupported file type: " ++ pyLower ".docx")) ∧
    fileOutput true ⟨"x.docx", FileState.present ⟨".docx", [], []⟩⟩ =
      "[error] Failed to process " ++ "x.docx" ++ ": " ++
        ("Unsupported file type: " ++ pyLower ".docx") := by
  have h := C9_batch_never_fails
    [⟨"missing.png", FileState.missing⟩, ⟨"x.docx", FileState.present ⟨".docx", [], []⟩⟩]
    "x.docx" ⟨".docx", [], []⟩ true ("Unsupported file type: " ++ pyLower ".docx")
  refine ⟨?_, h.2.2 (by rfl)⟩
  rw [h.1]
  decide

/-- C10: a detection whose text field is not a string is discarded exactly
as a whitespace-only detection is: filtering such detections away first
changes nothing, the Line Reconstructor is total on them, and an input of
only such detections yields the empty string. -/
theorem C10_nonstring_text_discarded (results : List RawResult) (t : ℚ)
    (hall : ∀ r ∈ results, isStrText r = false) :
    (∀ results2 : List RawResult,
      _group_by_line results2 t = _group_by_line (results2.filter isStrText) t) ∧
    _format_results results = "" := by
  constructor
  · intro results2
    unfold _group_by_line sortedItems
    rw [filterMap_mkItem_filter_str]
  · have hnone : ∀ r ∈ results, textOk r = false := by
      intro r hr
      have hs := hall r hr
      rcases r with ⟨bbox, tx, c⟩
      cases tx with
      | str s => simp [isStrText] at hs
      | nonstr => simp [textOk]
    have hfm := filterMap_mkItem_nil results hnone
    unfold _format_results
    by_cases h : results = []
    · rw [if_pos h]
    · rw [if_neg h]
      unfold _group_by_line sortedItems
      rw [hfm]
      rfl

/-- Witness for C10 at two non-string-text detections. -/
theorem C10_witness :
    _group_by_line [exC10a, exC10b] 0 =
      _group_by_line ([exC10a, exC10b].filter isStrText) 0 ∧
    _format_results [exC10a, exC10b] = "" := by
  obtain ⟨h1, h2⟩ := C10_nonstring_text_discarded [exC10a, exC10b] 0 (by decide)
  exact ⟨h1 [exC10a, exC10b], h2⟩

end OCRApp
